import Mathlib

/-!
Verification of the simulation engine in src/productivity_analysis.py.

The engine is the class QuantumMissionControl: a validated constructor that
seeds the process-wide random generator, a pink-noise generator built from a
real-input discrete Fourier transform with a DC-bin clamp, and a run method
producing four aligned series (day axis, fidelity of technology A = SC,
fidelity of technology B = TI, temperature).

Embedding choices:
- Machine floats become exact reals; the spec itself says bit-exact float
  values need not be reproduced, only the formulas and shaping structure.
- The process-wide numpy random generator becomes an explicit state
  RNGState = (seed, position).  The stream of standard-normal draws is a
  parameter g : seed -> position -> real of the theorems: draw i after
  seeding with s is g s i.  np.random.seed(seed) resets the state to
  (seed, 0); every consuming call advances the position.
- np.random.randn / np.random.normal(0,1,n) consume n successive draws.
- The constructor is QuantumMissionControl.init, returning
  Except String QuantumMissionControl (the ValueError branch) paired with
  the resulting global RNG state.
- run_simulation threads the RNG state: temperature consumes the first
  ticks draws, the white noise inside pink_noise the next ticks draws.
- numpy rfft / rfftfreq / irfft are embedded literally as finite complex
  exponential sums: rfft is the unnormalized forward transform on the
  n/2+1 nonnegative-frequency bins, irfft rebuilds the full spectrum by
  Hermitian symmetry, applies the normalized inverse transform and takes
  the real part (which is exactly how numpy treats the stored half
  spectrum, including dropping the imaginary parts of the DC and Nyquist
  bins).
- np.clip(x, 0, 1) is clip01 x = min (max x 0) 1.
-/

noncomputable section

/-- Process-wide random generator state: the seed last planted by
np.random.seed together with the number of standard-normal draws consumed
since then. -/
structure RNGState where
  seed : ℤ
  pos : ℕ
deriving DecidableEq

/-- The engine object: the fields stored by QuantumMissionControl.__init__
(duration_days, ticks = duration_days * 24, qec_day). -/
structure QuantumMissionControl where
  duration_days : ℤ
  ticks : ℕ
  qec_day : ℤ
deriving DecidableEq

/-- QuantumMissionControl.__init__: validate, then store the fields and seed
the process-wide generator.  The validation check precedes both the field
assignments and np.random.seed, so on failure the incoming RNG state is
returned untouched. -/
def QuantumMissionControl.init (duration_days qec_day seed : ℤ) (st : RNGState) :
    Except String QuantumMissionControl × RNGState :=
  if duration_days ≤ 0 ∨ qec_day < 0 ∨ qec_day > duration_days then
    (Except.error "Invalid configuration: check duration_days and qec_day.", st)
  else
    (Except.ok ⟨duration_days, (duration_days * 24).toNat, qec_day⟩, ⟨seed, 0⟩)

/-- np.fft.rfftfreq(n): the nonnegative frequency bins k / n, k = 0 .. n/2. -/
def rfftfreq (n k : ℕ) : ℝ := (k : ℝ) / (n : ℝ)

/-- The frequency array after the numerical-stability assignment f[0] = 1.0. -/
def fclamped (n k : ℕ) : ℝ := if k = 0 then 1 else rfftfreq n k

/-- np.fft.rfft: unnormalized forward discrete Fourier transform of a real
signal of length n, bin k. -/
def rfftCoeff (w : ℕ → ℝ) (n k : ℕ) : ℂ :=
  ∑ j ∈ Finset.range n,
    (w j : ℂ) * Complex.exp (-(2 * (Real.pi : ℂ) * Complex.I) * (j : ℂ) * (k : ℂ) / (n : ℂ))

/-- The full length-n spectrum numpy reconstructs from the stored half
spectrum: bins up to n/2 are taken as given, the rest by Hermitian symmetry. -/
def fullSpectrum (a : ℕ → ℂ) (n k : ℕ) : ℂ :=
  if k ≤ n / 2 then a k else (starRingEnd ℂ) (a (n - k))

/-- np.fft.irfft(a, n): normalized inverse transform of the Hermitian
reconstruction, real part taken (numpy drops the imaginary parts of the DC
and Nyquist bins, which is exactly what the final .re does here). -/
def irfft (a : ℕ → ℂ) (n j : ℕ) : ℝ :=
  ((1 : ℂ) / (n : ℂ) * ∑ k ∈ Finset.range n,
    fullSpectrum a n k * Complex.exp (2 * (Real.pi : ℂ) * Complex.I * (j : ℂ) * (k : ℂ) / (n : ℂ))).re

/-- QuantumMissionControl.pink_noise on white-noise input: shape the white
spectrum by 1 / sqrt(f) with the DC bin clamped to 1, then invert. -/
def pinkNoise (white : ℕ → ℝ) (n : ℕ) (j : ℕ) : ℝ :=
  irfft (fun k => rfftCoeff white n k / (Real.sqrt (fclamped n k) : ℂ)) n j

/-- The fractional day value of hour tick t: days = t / 24.0. -/
def dayAt (t : ℕ) : ℝ := (t : ℝ) / 24

/-- Temperature series of run_simulation: daily oscillation plus one
standard-normal draw per tick, the run's first block of draws. -/
def tempSeries (g : ℤ → ℕ → ℝ) (st : RNGState) (t : ℕ) : ℝ :=
  15 + 5 * Real.sin (2 * Real.pi * (t : ℝ) / 24) + g st.seed (st.pos + t)

/-- The white-noise input of pink_noise inside run_simulation: the second
block of ticks draws, consumed after the temperature block. -/
def whiteSeries (g : ℤ → ℕ → ℝ) (st : RNGState) (ticks i : ℕ) : ℝ :=
  g st.seed (st.pos + ticks + i)

/-- noise = self.pink_noise(self.ticks) * 0.02. -/
def noiseSeries (g : ℤ → ℕ → ℝ) (st : RNGState) (ticks t : ℕ) : ℝ :=
  pinkNoise (whiteSeries g st ticks) ticks t * 0.02

/-- base_sc = 0.70 - (temp - 15) * 0.012 + noise. -/
def base_sc (temp noise : ℕ → ℝ) (t : ℕ) : ℝ :=
  0.70 - (temp t - 15) * 0.012 + noise t

/-- base_ti = 0.85 - (temp - 15) * 0.004 + noise * 0.5. -/
def base_ti (temp noise : ℕ → ℝ) (t : ℕ) : ℝ :=
  0.85 - (temp t - 15) * 0.004 + noise t * 0.5

/-- The in-place uplift base[qec_active] += uplift, where the mask is
days >= qec_day. -/
def withUplift (qec_day : ℤ) (base : ℕ → ℝ) (uplift : ℝ) (t : ℕ) : ℝ :=
  if (qec_day : ℝ) ≤ dayAt t then base t + uplift else base t

/-- np.clip(x, 0, 1). -/
def clip01 (x : ℝ) : ℝ := min (max x 0) 1

/-- QuantumMissionControl.run_simulation: computes the day axis, the
temperature (consuming ticks draws), the activation mask, the scaled pink
noise (consuming ticks more draws), the two baseline fidelities, applies the
uplift where the mask holds, clamps to [0, 1], and returns
(days, fidelity_sc, fidelity_ti, temp) with the advanced RNG state. -/
def runSimulation (g : ℤ → ℕ → ℝ) (m : QuantumMissionControl) (st : RNGState) :
    (List ℝ × List ℝ × List ℝ × List ℝ) × RNGState :=
  let temp := tempSeries g st
  let noise := noiseSeries g st m.ticks
  let fidelity_sc := fun t => clip01 (withUplift m.qec_day (base_sc temp noise) 0.22 t)
  let fidelity_ti := fun t => clip01 (withUplift m.qec_day (base_ti temp noise) 0.07 t)
  (((List.range m.ticks).map dayAt,
    (List.range m.ticks).map fidelity_sc,
    (List.range m.ticks).map fidelity_ti,
    (List.range m.ticks).map temp),
   ⟨st.seed, st.pos + m.ticks + m.ticks⟩)

end

theorem clip01_mem (x : ℝ) : 0 ≤ clip01 x ∧ clip01 x ≤ 1 :=
  ⟨le_min (le_max_right x 0) zero_le_one, min_le_right _ _⟩

theorem getD_map_range {α : Type} (f : ℕ → α) (n t : ℕ) (h : t < n) (d : α) :
    ((List.range n).map f).getD t d = f t := by
  rw [List.getD_eq_getElem?_getD, List.getElem?_map, List.getElem?_range h]
  rfl

theorem run_days (g : ℤ → ℕ → ℝ) (m : QuantumMissionControl) (st : RNGState) :
    (runSimulation g m st).1.1 = (List.range m.ticks).map dayAt := rfl

theorem run_fsc (g : ℤ → ℕ → ℝ) (m : QuantumMissionControl) (st : RNGState) :
    (runSimulation g m st).1.2.1 = (List.range m.ticks).map
      (fun t => clip01 (withUplift m.qec_day
        (base_sc (tempSeries g st) (noiseSeries g st m.ticks)) 0.22 t)) := rfl

theorem run_fti (g : ℤ → ℕ → ℝ) (m : QuantumMissionControl) (st : RNGState) :
    (runSimulation g m st).1.2.2.1 = (List.range m.ticks).map
      (fun t => clip01 (withUplift m.qec_day
        (base_ti (tempSeries g st) (noiseSeries g st m.ticks)) 0.07 t)) := rfl

theorem run_temp (g : ℤ → ℕ → ℝ) (m : QuantumMissionControl) (st : RNGState) :
    (runSimulation g m st).1.2.2.2 = (List.range m.ticks).map (tempSeries g st) := rfl

theorem run_state (g : ℤ → ℕ → ℝ) (m : QuantumMissionControl) (st : RNGState) :
    (runSimulation g m st).2 = ⟨st.seed, st.pos + m.ticks + m.ticks⟩ := rfl

theorem init_ok_elim (d q s : ℤ) (st0 : RNGState) (m : QuantumMissionControl)
    (h : (QuantumMissionControl.init d q s st0).1 = Except.ok m) :
    m = ⟨d, (d * 24).toNat, q⟩ ∧ 0 < d ∧ 0 ≤ q ∧ q ≤ d := by
  unfold QuantumMissionControl.init at h
  by_cases hc : d ≤ 0 ∨ q < 0 ∨ q > d
  · rw [if_pos hc] at h
    exact absurd h (by simp)
  · rw [if_neg hc] at h
    push_neg at hc
    obtain ⟨h1, h2, h3⟩ := hc
    refine ⟨?_, by omega, by omega, by omega⟩
    simpa using h.symm

/-- C1: every element of both returned fidelity series lies in [0, 1]: the
final clamp saturates any out-of-range intermediate value (baseline plus
noise plus uplift) to the bound instead of rejecting it, for every tick and
every realized sequence of random draws. -/
theorem fidelity_series_clamped_to_unit_interval
    (g : ℤ → ℕ → ℝ) (m : QuantumMissionControl) (st : RNGState)
    (t : ℕ) (h : t < m.ticks) :
    (0 ≤ (runSimulation g m st).1.2.1.getD t 0 ∧ (runSimulation g m st).1.2.1.getD t 0 ≤ 1) ∧
    (0 ≤ (runSimulation g m st).1.2.2.1.getD t 0 ∧
      (runSimulation g m st).1.2.2.1.getD t 0 ≤ 1) := by
  rw [run_fsc, run_fti, getD_map_range _ _ _ h, getD_map_range _ _ _ h]
  exact ⟨clip01_mem _, clip01_mem _⟩

theorem fidelity_series_clamped_to_unit_interval_witness :
    0 < (QuantumMissionControl.mk 1 24 0).ticks ∧
    ((0 ≤ (runSimulation (fun _ _ => (0:ℝ)) ⟨1, 24, 0⟩ ⟨0, 0⟩).1.2.1.getD 0 0 ∧
      (runSimulation (fun _ _ => (0:ℝ)) ⟨1, 24, 0⟩ ⟨0, 0⟩).1.2.1.getD 0 0 ≤ 1) ∧
     (0 ≤ (runSimulation (fun _ _ => (0:ℝ)) ⟨1, 24, 0⟩ ⟨0, 0⟩).1.2.2.1.getD 0 0 ∧
      (runSimulation (fun _ _ => (0:ℝ)) ⟨1, 24, 0⟩ ⟨0, 0⟩).1.2.2.1.getD 0 0 ≤ 1)) :=
  ⟨by decide,
   fidelity_series_clamped_to_unit_interval (fun _ _ => 0) ⟨1, 24, 0⟩ ⟨0, 0⟩ 0 (by decide)⟩

/-- C2: for every configuration accepted by the constructor, run_simulation
returns the tuple (day_axis, fidelity_A, fidelity_B, temperature) in that
order, all four lists have length duration_days * 24, and the day axis
satisfies day_axis[i] = i / 24 at every index. -/
theorem run_returns_four_aligned_series
    (g : ℤ → ℕ → ℝ) (d q s : ℤ) (st0 st : RNGState) (m : QuantumMissionControl)
    (h : (QuantumMissionControl.init d q s st0).1 = Except.ok m) :
    ((runSimulation g m st).1.1.length = (d * 24).toNat ∧
     (runSimulation g m st).1.2.1.length = (d * 24).toNat ∧
     (runSimulation g m st).1.2.2.1.length = (d * 24).toNat ∧
     (runSimulation g m st).1.2.2.2.length = (d * 24).toNat) ∧
    ∀ i : ℕ, i < (d * 24).toNat → (runSimulation g m st).1.1.getD i 0 = (i : ℝ) / 24 := by
  obtain ⟨hm, hd, _, _⟩ := init_ok_elim d q s st0 m h
  subst hm
  constructor
  · refine ⟨?_, ?_, ?_, ?_⟩ <;> simp [run_days, run_fsc, run_fti, run_temp]
  · intro i hi
    rw [run_days, getD_map_range _ _ _ hi]
    rfl

theorem run_returns_four_aligned_series_witness :
    (QuantumMissionControl.init 1 0 0 ⟨0, 0⟩).1 = Except.ok ⟨1, 24, 0⟩ ∧
    (((runSimulation (fun _ _ => (0:ℝ)) ⟨1, 24, 0⟩ ⟨0, 0⟩).1.1.length = ((1:ℤ) * 24).toNat ∧
      (runSimulation (fun _ _ => (0:ℝ)) ⟨1, 24, 0⟩ ⟨0, 0⟩).1.2.1.length = ((1:ℤ) * 24).toNat ∧
      (runSimulation (fun _ _ => (0:ℝ)) ⟨1, 24, 0⟩ ⟨0, 0⟩).1.2.2.1.length = ((1:ℤ) * 24).toNat ∧
      (runSimulation (fun _ _ => (0:ℝ)) ⟨1, 24, 0⟩ ⟨0, 0⟩).1.2.2.2.length = ((1:ℤ) * 24).toNat) ∧
     ∀ i : ℕ, i < ((1:ℤ) * 24).toNat →
       (runSimulation (fun _ _ => (0:ℝ)) ⟨1, 24, 0⟩ ⟨0, 0⟩).1.1.getD i 0 = (i : ℝ) / 24) :=
  ⟨rfl, run_returns_four_aligned_series (fun _ _ => 0) 1 0 0 ⟨0, 0⟩ ⟨0, 0⟩ ⟨1, 24, 0⟩ rfl⟩

/-- C3: the constructor fails exactly when duration_days <= 0, or
qec_day < 0, or qec_day > duration_days; otherwise it succeeds and stores
the fields, so qec_day = duration_days is accepted (inclusive upper
boundary) while qec_day = duration_days + 1 and duration_days = 0 are
rejected. -/
theorem init_raises_iff_invalid_configuration (d q s : ℤ) (st : RNGState) :
    ((QuantumMissionControl.init d q s st).1 =
       Except.error "Invalid configuration: check duration_days and qec_day." ↔
      (d ≤ 0 ∨ q < 0 ∨ q > d)) ∧
    (¬(d ≤ 0 ∨ q < 0 ∨ q > d) →
      (QuantumMissionControl.init d q s st).1 = Except.ok ⟨d, (d * 24).toNat, q⟩) := by
  unfold QuantumMissionControl.init
  by_cases hc : d ≤ 0 ∨ q < 0 ∨ q > d
  · rw [if_pos hc]
    exact ⟨⟨fun _ => hc, fun _ => rfl⟩, fun h => absurd hc h⟩
  · rw [if_neg hc]
    exact ⟨⟨fun h => by simp at h, fun h => absurd h hc⟩, fun _ => rfl⟩

theorem init_raises_iff_invalid_configuration_witness :
    ((QuantumMissionControl.init 10 10 0 ⟨0, 0⟩).1 = Except.ok ⟨10, 240, 10⟩) ∧
    ((QuantumMissionControl.init 10 11 0 ⟨0, 0⟩).1 =
      Except.error "Invalid configuration: check duration_days and qec_day.") ∧
    ((QuantumMissionControl.init 0 0 0 ⟨0, 0⟩).1 =
      Except.error "Invalid configuration: check duration_days and qec_day.") :=
  ⟨(init_raises_iff_invalid_configuration 10 10 0 ⟨0, 0⟩).2 (by decide),
   (init_raises_iff_invalid_configuration 10 11 0 ⟨0, 0⟩).1.mpr (by decide),
   (init_raises_iff_invalid_configuration 0 0 0 ⟨0, 0⟩).1.mpr (by decide)⟩

/-- C10: on an invalid configuration the constructor raises before its
seeding side effect: the returned global RNG state is exactly the incoming
one and no engine object (no stored fields) is produced. -/
theorem invalid_init_leaves_rng_unchanged (d q s : ℤ) (st : RNGState)
    (h : d ≤ 0 ∨ q < 0 ∨ q > d) :
    QuantumMissionControl.init d q s st =
      (Except.error "Invalid configuration: check duration_days and qec_day.", st) := by
  unfold QuantumMissionControl.init
  rw [if_pos h]

theorem invalid_init_leaves_rng_unchanged_witness :
    ((0:ℤ) ≤ 0 ∨ (2:ℤ) < 0 ∨ (2:ℤ) > 0) ∧
    QuantumMissionControl.init 0 2 5 ⟨3, 7⟩ =
      (Except.error "Invalid configuration: check duration_days and qec_day.", ⟨3, 7⟩) :=
  ⟨by decide, invalid_init_leaves_rng_unchanged 0 2 5 ⟨3, 7⟩ (by decide)⟩

/-- C4: at every tick the pre-clamp fidelity of technology A is
0.70 - (temp[t] - 15) * 0.012 + noise[t] and that of technology B is
0.85 - (temp[t] - 15) * 0.004 + noise[t] * 0.5, both built from the one
realized temperature series returned by the run and the one realized noise
series; the fixed uplift (+0.22 for A, +0.07 for B) is added before the
clamp exactly on ticks with day >= activation day and nothing is added on
earlier ticks. -/
theorem preclamp_fidelity_formulas
    (g : ℤ → ℕ → ℝ) (m : QuantumMissionControl) (st : RNGState)
    (t : ℕ) (h : t < m.ticks) :
    (runSimulation g m st).1.2.1.getD t 0 =
      clip01 ((0.70 - ((runSimulation g m st).1.2.2.2.getD t 0 - 15) * 0.012
        + noiseSeries g st m.ticks t)
        + (if (m.qec_day : ℝ) ≤ (t : ℝ) / 24 then 0.22 else 0)) ∧
    (runSimulation g m st).1.2.2.1.getD t 0 =
      clip01 ((0.85 - ((runSimulation g m st).1.2.2.2.getD t 0 - 15) * 0.004
        + noiseSeries g st m.ticks t * 0.5)
        + (if (m.qec_day : ℝ) ≤ (t : ℝ) / 24 then 0.07 else 0)) := by
  rw [run_fsc, run_fti, run_temp, getD_map_range _ _ _ h, getD_map_range _ _ _ h,
    getD_map_range _ _ _ h]
  by_cases hq : (m.qec_day : ℝ) ≤ (t : ℝ) / 24
  · constructor <;> simp [withUplift, base_sc, base_ti, dayAt, hq]
  · constructor <;> simp [withUplift, base_sc, base_ti, dayAt, hq]

theorem preclamp_fidelity_formulas_witness :
    0 < (QuantumMissionControl.mk 1 24 0).ticks ∧
    ((runSimulation (fun _ _ => (0:ℝ)) ⟨1, 24, 0⟩ ⟨0, 0⟩).1.2.1.getD 0 0 =
      clip01 ((0.70 -
          ((runSimulation (fun _ _ => (0:ℝ)) ⟨1, 24, 0⟩ ⟨0, 0⟩).1.2.2.2.getD 0 0 - 15) * 0.012
        + noiseSeries (fun _ _ => (0:ℝ)) ⟨0, 0⟩ (QuantumMissionControl.mk 1 24 0).ticks 0)
        + (if (((QuantumMissionControl.mk 1 24 0).qec_day : ℤ) : ℝ) ≤ ((0:ℕ) : ℝ) / 24
           then 0.22 else 0)) ∧
     (runSimulation (fun _ _ => (0:ℝ)) ⟨1, 24, 0⟩ ⟨0, 0⟩).1.2.2.1.getD 0 0 =
      clip01 ((0.85 -
          ((runSimulation (fun _ _ => (0:ℝ)) ⟨1, 24, 0⟩ ⟨0, 0⟩).1.2.2.2.getD 0 0 - 15) * 0.004
        + noiseSeries (fun _ _ => (0:ℝ)) ⟨0, 0⟩ (QuantumMissionControl.mk 1 24 0).ticks 0 * 0.5)
        + (if (((QuantumMissionControl.mk 1 24 0).qec_day : ℤ) : ℝ) ≤ ((0:ℕ) : ℝ) / 24
           then 0.07 else 0))) :=
  ⟨by decide, preclamp_fidelity_formulas (fun _ _ => 0) ⟨1, 24, 0⟩ ⟨0, 0⟩ 0 (by decide)⟩

/-- C5: in pink_noise the raw DC frequency bin rfftfreq[0] is zero, the
numerical-stability assignment forces it to one, and after that assignment
every frequency bin used in the spectral division is strictly positive, as
is its square root: no spectral coefficient of the generator is divided by
zero, so every element of the real sequence it inverts back to is a
well-defined finite real (the real-number rendering of non-NaN,
non-infinite), which would fail at the DC bin absent the clamp. -/
theorem pink_noise_dc_clamp_finite (n k : ℕ) (h : k ≤ n / 2) :
    rfftfreq n 0 = 0 ∧ fclamped n 0 = 1 ∧ 0 < fclamped n k ∧
      0 < Real.sqrt (fclamped n k) ∧
      ∀ (w : ℕ → ℝ) (j : ℕ), pinkNoise w n j =
        irfft (fun i => rfftCoeff w n i / (Real.sqrt (fclamped n i) : ℂ)) n j := by
  have hpos : 0 < fclamped n k := by
    cases k with
    | zero => simp [fclamped]
    | succ k =>
      have hn : 0 < n := by omega
      have hval : fclamped n (k + 1) = ((k + 1 : ℕ) : ℝ) / (n : ℝ) := by
        simp [fclamped, rfftfreq]
      rw [hval]
      exact div_pos (by positivity) (by exact_mod_cast hn)
  exact ⟨by simp [rfftfreq], by simp [fclamped], hpos, Real.sqrt_pos.mpr hpos, fun w j => rfl⟩

theorem pink_noise_dc_clamp_finite_witness :
    (3 : ℕ) ≤ 8 / 2 ∧
    (rfftfreq 8 0 = 0 ∧ fclamped 8 0 = 1 ∧ 0 < fclamped 8 3 ∧
      0 < Real.sqrt (fclamped 8 3) ∧
      ∀ (w : ℕ → ℝ) (j : ℕ), pinkNoise w 8 j =
        irfft (fun i => rfftCoeff w 8 i / (Real.sqrt (fclamped 8 i) : ℂ)) 8 j) :=
  ⟨by decide, pink_noise_dc_clamp_finite 8 3 (by decide)⟩

/-- C6: temp[t] = 15 + 5 sin(2 pi t / 24) plus the single standard-normal
draw belonging to that tick (stream position pos + t): the returned
temperature value is a function of the tick index and that one per-tick draw
alone, so it depends neither on the correlated noise process (which reads
stream positions pos + ticks and beyond) nor on the fidelity series. -/
theorem temperature_pure_function_of_tick
    (g : ℤ → ℕ → ℝ) (m : QuantumMissionControl) (st : RNGState)
    (t : ℕ) (h : t < m.ticks) :
    (runSimulation g m st).1.2.2.2.getD t 0 =
      15 + 5 * Real.sin (2 * Real.pi * (t : ℝ) / 24) + g st.seed (st.pos + t) := by
  rw [run_temp, getD_map_range _ _ _ h]
  rfl

theorem temperature_pure_function_of_tick_witness :
    0 < (QuantumMissionControl.mk 1 24 0).ticks ∧
    (runSimulation (fun _ _ => (0:ℝ)) ⟨1, 24, 0⟩ ⟨0, 0⟩).1.2.2.2.getD 0 0 =
      15 + 5 * Real.sin (2 * Real.pi * ((0:ℕ) : ℝ) / 24) + (0:ℝ) :=
  ⟨by decide, temperature_pure_function_of_tick (fun _ _ => 0) ⟨1, 24, 0⟩ ⟨0, 0⟩ 0 (by decide)⟩

/-- C7: the run output is a function of the seed, the configuration and the
seeded stream alone, so two engine instances constructed with the same seed
and configuration (whatever global RNG states they start from) each run once
produce identical outputs; but two sequential runs on one instance are not
reproducible copies: seeding happens only at construction, the first run
advances the global state, and there is a stream and a constructed engine on
which the second run's output differs from the first. -/
theorem seeding_determinism_and_sequential_divergence :
    (∀ (g : ℤ → ℕ → ℝ) (d q s : ℤ) (st1 st2 : RNGState)
       (m1 m2 : QuantumMissionControl) (r1 r2 : RNGState),
      QuantumMissionControl.init d q s st1 = (Except.ok m1, r1) →
      QuantumMissionControl.init d q s st2 = (Except.ok m2, r2) →
      runSimulation g m1 r1 = runSimulation g m2 r2) ∧
    (∃ (g : ℤ → ℕ → ℝ) (d q s : ℤ) (st0 : RNGState)
       (m : QuantumMissionControl) (r : RNGState),
      QuantumMissionControl.init d q s st0 = (Except.ok m, r) ∧
      (runSimulation g m ((runSimulation g m r).2)).1 ≠ (runSimulation g m r).1) := by
  constructor
  · intro g d q s st1 st2 m1 m2 r1 r2 h1 h2
    unfold QuantumMissionControl.init at h1 h2
    by_cases hc : d ≤ 0 ∨ q < 0 ∨ q > d
    · rw [if_pos hc] at h1
      simp at h1
    · rw [if_neg hc] at h1 h2
      injection h1 with hA1 hB1
      injection h2 with hA2 hB2
      injection hA1 with hA1
      injection hA2 with hA2
      rw [← hA1, ← hB1, ← hA2, ← hB2]
  · refine ⟨fun _ i => (i : ℝ), 1, 0, 0, ⟨0, 0⟩, ⟨1, 24, 0⟩, ⟨0, 0⟩, rfl, ?_⟩
    have hst : (runSimulation (fun _ i => (i : ℝ)) ⟨1, 24, 0⟩ ⟨0, 0⟩).2 =
        (⟨0, 48⟩ : RNGState) := rfl
    rw [hst]
    intro heq
    have e1 : (runSimulation (fun _ i => (i : ℝ)) ⟨1, 24, 0⟩ ⟨0, 48⟩).1.2.2.2.getD 0 0 =
        tempSeries (fun _ i => (i : ℝ)) ⟨0, 48⟩ 0 := by
      rw [run_temp]
      exact getD_map_range _ _ _ (by decide) _
    have e2 : (runSimulation (fun _ i => (i : ℝ)) ⟨1, 24, 0⟩ ⟨0, 0⟩).1.2.2.2.getD 0 0 =
        tempSeries (fun _ i => (i : ℝ)) ⟨0, 0⟩ 0 := by
      rw [run_temp]
      exact getD_map_range _ _ _ (by decide) _
    have h0 := congrArg (fun x => x.2.2.2.getD 0 0) heq
    dsimp only at h0
    rw [e1, e2] at h0
    simp only [tempSeries] at h0
    norm_num at h0

theorem seeding_determinism_and_sequential_divergence_witness :
    QuantumMissionControl.init 1 0 7 ⟨3, 5⟩ = (Except.ok ⟨1, 24, 0⟩, ⟨7, 0⟩) ∧
    QuantumMissionControl.init 1 0 7 ⟨9, 1⟩ = (Except.ok ⟨1, 24, 0⟩, ⟨7, 0⟩) ∧
    runSimulation (fun _ _ => (0:ℝ)) ⟨1, 24, 0⟩ ⟨7, 0⟩ =
      runSimulation (fun _ _ => (0:ℝ)) ⟨1, 24, 0⟩ ⟨7, 0⟩ :=
  ⟨rfl, rfl,
   seeding_determinism_and_sequential_divergence.1 (fun _ _ => 0) 1 0 7 ⟨3, 5⟩ ⟨9, 1⟩
     ⟨1, 24, 0⟩ ⟨1, 24, 0⟩ ⟨7, 0⟩ ⟨7, 0⟩ rfl rfl⟩

/-- C8: when the activation day equals the horizon, construction succeeds
but the activation mask is false at every tick: every tick has
day = t / 24 < duration_days because t < duration_days * 24, so both
fidelity series are the clamped baselines with no uplift added anywhere. -/
theorem activation_at_horizon_no_uplift
    (g : ℤ → ℕ → ℝ) (d s : ℤ) (st0 st : RNGState) (m : QuantumMissionControl)
    (h : (QuantumMissionControl.init d d s st0).1 = Except.ok m)
    (t : ℕ) (ht : t < m.ticks) :
    ¬ ((m.qec_day : ℝ) ≤ (t : ℝ) / 24) ∧
    (runSimulation g m st).1.2.1.getD t 0 =
      clip01 (base_sc (tempSeries g st) (noiseSeries g st m.ticks) t) ∧
    (runSimulation g m st).1.2.2.1.getD t 0 =
      clip01 (base_ti (tempSeries g st) (noiseSeries g st m.ticks) t) := by
  obtain ⟨hm, hd, _, _⟩ := init_ok_elim d d s st0 m h
  have hticks : m.ticks = (d * 24).toNat := by rw [hm]
  have hq : m.qec_day = d := by rw [hm]
  have htZ : (t : ℤ) < d * 24 := by
    rw [hticks] at ht
    omega
  have hmask : ¬ ((m.qec_day : ℝ) ≤ (t : ℝ) / 24) := by
    rw [hq, not_le, div_lt_iff₀ (by norm_num : (0:ℝ) < 24)]
    calc (t : ℝ) < ((d * 24 : ℤ) : ℝ) := by exact_mod_cast htZ
    _ = (d : ℝ) * 24 := by push_cast; ring
  have hmaskD : ¬ ((m.qec_day : ℝ) ≤ dayAt t) := by simpa [dayAt] using hmask
  refine ⟨hmask, ?_, ?_⟩
  · rw [run_fsc, getD_map_range _ _ _ ht]
    unfold withUplift
    rw [if_neg hmaskD]
  · rw [run_fti, getD_map_range _ _ _ ht]
    unfold withUplift
    rw [if_neg hmaskD]

theorem activation_at_horizon_no_uplift_witness :
    (QuantumMissionControl.init 1 1 0 ⟨0, 0⟩).1 = Except.ok ⟨1, 24, 1⟩ ∧
    0 < (QuantumMissionControl.mk 1 24 1).ticks ∧
    (¬ (((QuantumMissionControl.mk 1 24 1).qec_day : ℝ) ≤ ((0:ℕ) : ℝ) / 24) ∧
     (runSimulation (fun _ _ => (0:ℝ)) ⟨1, 24, 1⟩ ⟨0, 0⟩).1.2.1.getD 0 0 =
       clip01 (base_sc (tempSeries (fun _ _ => (0:ℝ)) ⟨0, 0⟩)
         (noiseSeries (fun _ _ => (0:ℝ)) ⟨0, 0⟩ (QuantumMissionControl.mk 1 24 1).ticks) 0) ∧
     (runSimulation (fun _ _ => (0:ℝ)) ⟨1, 24, 1⟩ ⟨0, 0⟩).1.2.2.1.getD 0 0 =
       clip01 (base_ti (tempSeries (fun _ _ => (0:ℝ)) ⟨0, 0⟩)
         (noiseSeries (fun _ _ => (0:ℝ)) ⟨0, 0⟩ (QuantumMissionControl.mk 1 24 1).ticks) 0)) :=
  ⟨rfl, by decide,
   activation_at_horizon_no_uplift (fun _ _ => 0) 1 0 ⟨0, 0⟩ ⟨0, 0⟩ ⟨1, 24, 1⟩ rfl 0 (by decide)⟩

/-- C9: when the activation day is 0 construction succeeds and the
activation mask is true at every tick (every day value is nonnegative), so
the uplift constant is added at every tick for both technologies before the
clamp. -/
theorem activation_day_zero_uplift_everywhere
    (g : ℤ → ℕ → ℝ) (d s : ℤ) (st0 st : RNGState) (m : QuantumMissionControl)
    (h : (QuantumMissionControl.init d 0 s st0).1 = Except.ok m)
    (t : ℕ) (ht : t < m.ticks) :
    ((m.qec_day : ℝ) ≤ (t : ℝ) / 24) ∧
    (runSimulation g m st).1.2.1.getD t 0 =
      clip01 (base_sc (tempSeries g st) (noiseSeries g st m.ticks) t + 0.22) ∧
    (runSimulation g m st).1.2.2.1.getD t 0 =
      clip01 (base_ti (tempSeries g st) (noiseSeries g st m.ticks) t + 0.07) := by
  obtain ⟨hm, _, _, _⟩ := init_ok_elim d 0 s st0 m h
  have hq : m.qec_day = 0 := by rw [hm]
  have hmaskD : (m.qec_day : ℝ) ≤ dayAt t := by
    rw [hq]
    unfold dayAt
    push_cast
    positivity
  refine ⟨by simpa [dayAt] using hmaskD, ?_, ?_⟩
  · rw [run_fsc, getD_map_range _ _ _ ht]
    unfold withUplift
    rw [if_pos hmaskD]
  · rw [run_fti, getD_map_range _ _ _ ht]
    unfold withUplift
    rw [if_pos hmaskD]

theorem activation_day_zero_uplift_everywhere_witness :
    (QuantumMissionControl.init 1 0 0 ⟨0, 0⟩).1 = Except.ok ⟨1, 24, 0⟩ ∧
    0 < (QuantumMissionControl.mk 1 24 0).ticks ∧
    ((((QuantumMissionControl.mk 1 24 0).qec_day : ℝ) ≤ ((0:ℕ) : ℝ) / 24) ∧
     (runSimulation (fun _ _ => (0:ℝ)) ⟨1, 24, 0⟩ ⟨0, 0⟩).1.2.1.getD 0 0 =
       clip01 (base_sc (tempSeries (fun _ _ => (0:ℝ)) ⟨0, 0⟩)
         (noiseSeries (fun _ _ => (0:ℝ)) ⟨0, 0⟩ (QuantumMissionControl.mk 1 24 0).ticks) 0
         + 0.22) ∧
     (runSimulation (fun _ _ => (0:ℝ)) ⟨1, 24, 0⟩ ⟨0, 0⟩).1.2.2.1.getD 0 0 =
       clip01 (base_ti (tempSeries (fun _ _ => (0:ℝ)) ⟨0, 0⟩)
         (noiseSeries (fun _ _ => (0:ℝ)) ⟨0, 0⟩ (QuantumMissionControl.mk 1 24 0).ticks) 0
         + 0.07)) :=
  ⟨rfl, by decide,
   activation_day_zero_uplift_everywhere (fun _ _ => 0) 1 0 ⟨0, 0⟩ ⟨0, 0⟩ ⟨1, 24, 0⟩ rfl 0
     (by decide)⟩
